import Mathlib

/-!
Shallow embedding of the Solana vote program in `src/src/lib.rs`.

The program is a single entrypoint `process_instruction(program_id, accounts,
instruction_data)` that: takes the first account, rejects the call with
`ProgramError::IncorrectProgramId` when `account.owner != program_id`,
borsh-deserializes the account data into a `VoteAccount` of three `u32`
counters (`yes`, `abstained`, `no`), matches on `instruction_data[0]`
(opcodes 0, 1, 2 increment the respective counter with `+= 1`; anything else
only logs), and borsh-serializes the tally back into the account buffer.

Modelling choices, all traced to the source:
- Bytes and `u32` values are `Nat`; `u32` arithmetic is taken modulo `2^32`.
  The increment `+= 1` is modelled with Rust release-mode semantics, i.e.
  wrapping modulo `2^32` (the crate sets no overflow policy of its own).
- borsh `try_from_slice` requires the buffer to be consumed exactly: fewer
  than 12 bytes is an unexpected-EOF failure, more than 12 leaves unread
  bytes, also a failure; so decoding succeeds iff the length is exactly 12.
- `serialize(&mut &mut data[..])` writes the 12 encoded bytes at the front
  of the buffer and fails when the buffer is shorter than 12 bytes.
- `instruction_data[0]` on an empty slice is an out-of-bounds panic, not a
  returned error; the outcome type has a dedicated `panic` constructor.
- `msg!` logging has no effect on the modelled state and is dropped.
-/

/-- The modulus of Rust `u32` arithmetic, `2^32`. -/
def U32MOD : Nat := 4294967296

/-- `VoteAccount` (src/src/lib.rs lines 11-16): three `u32` counters.
Fields are `Nat`; representable values are below `U32MOD`. -/
structure VoteAccount where
  yes : Nat
  abstained : Nat
  no : Nat
  deriving DecidableEq, Repr

/-- A `VoteAccount` is representable when every counter fits in a `u32`. -/
def VoteAccount.Valid (v : VoteAccount) : Prop :=
  v.yes < U32MOD ∧ v.abstained < U32MOD ∧ v.no < U32MOD

instance (v : VoteAccount) : Decidable v.Valid := by
  unfold VoteAccount.Valid; infer_instance

/-- Little-endian byte quadruple of a `u32` (Rust `u32::to_le_bytes`, the
layout borsh uses for `u32` fields). -/
def u32ToLeBytes (n : Nat) : List Nat :=
  [n % 256, n / 256 % 256, n / 65536 % 256, n / 16777216 % 256]

/-- Read a `u32` from four little-endian bytes (borsh `u32` deserialization). -/
def u32FromLeBytes (b0 b1 b2 b3 : Nat) : Nat :=
  b0 + 256 * b1 + 65536 * b2 + 16777216 * b3

/-- borsh `VoteAccount::try_from_slice` (src/src/lib.rs line 36): reads three
consecutive little-endian `u32` fields in the order `yes`, `abstained`, `no`
and requires the whole buffer to be consumed, so it succeeds iff the buffer
is exactly 12 bytes long. -/
def tryFromSlice (bytes : List Nat) : Option VoteAccount :=
  if bytes.length = 12 then
    some { yes := u32FromLeBytes (bytes.getD 0 0) (bytes.getD 1 0) (bytes.getD 2 0) (bytes.getD 3 0)
         , abstained := u32FromLeBytes (bytes.getD 4 0) (bytes.getD 5 0) (bytes.getD 6 0) (bytes.getD 7 0)
         , no := u32FromLeBytes (bytes.getD 8 0) (bytes.getD 9 0) (bytes.getD 10 0) (bytes.getD 11 0) }
  else none

/-- The 12-byte borsh encoding of a tally: the three fields as little-endian
`u32` values, in declared order. -/
def encodeTally (v : VoteAccount) : List Nat :=
  u32ToLeBytes v.yes ++ u32ToLeBytes v.abstained ++ u32ToLeBytes v.no

/-- borsh `vote_account.serialize(&mut &mut account.data.borrow_mut()[..])`
(src/src/lib.rs line 44): writes the 12 encoded bytes at the front of the
buffer, leaves any trailing bytes untouched, and fails when the buffer is
shorter than the encoding. -/
def serializeInto (v : VoteAccount) (buf : List Nat) : Option (List Nat) :=
  if buf.length < 12 then none
  else some (encodeTally v ++ buf.drop 12)

/-- One account as the program sees it (`AccountInfo`): an identity key,
signer/writable flags, a lamports balance, the data buffer, the declared
owner, the executable flag and a rent epoch. Identities are abstract `Nat`. -/
structure AccountInfo where
  key : Nat
  is_signer : Bool
  is_writable : Bool
  lamports : Nat
  data : List Nat
  owner : Nat
  executable : Bool
  rent_epoch : Nat
  deriving DecidableEq, Repr

/-- The error values the program can return. `NotEnoughAccountKeys` comes
from `next_account_info` on an empty account list; `IncorrectProgramId` from
the ownership gate; `BorshIoError` from a failed borsh decode or encode. -/
inductive ProgramError where
  | IncorrectProgramId
  | NotEnoughAccountKeys
  | BorshIoError
  deriving DecidableEq, Repr

/-- Result of one invocation together with the final account state.
`panic` models a Rust panic (reachable here only through the out-of-bounds
index `instruction_data[0]` on an empty payload); `err` and `ok` model the
`Err` and `Ok` cases of `ProgramResult`. -/
inductive Outcome where
  | panic (accounts : List AccountInfo)
  | err (e : ProgramError) (accounts : List AccountInfo)
  | ok (accounts : List AccountInfo)
  deriving DecidableEq, Repr

/-- The account state an outcome leaves behind. -/
def Outcome.accountsOf : Outcome → List AccountInfo
  | .panic accs => accs
  | .err _ accs => accs
  | .ok accs => accs

/-- Whether the invocation returned `Ok(())`. -/
def Outcome.isOk : Outcome → Bool
  | .ok _ => true
  | _ => false

/-- The `match instruction_data[0]` arms (src/src/lib.rs lines 37-42):
opcode 0 increments `yes`, 1 increments `abstained`, 2 increments `no`, each
with Rust release-mode `+= 1` semantics (wrapping modulo `2^32`); any other
opcode only logs and leaves the tally unchanged. -/
def applyOpcode (op : Nat) (v : VoteAccount) : VoteAccount :=
  if op = 0 then { v with yes := (v.yes + 1) % U32MOD }
  else if op = 1 then { v with abstained := (v.abstained + 1) % U32MOD }
  else if op = 2 then { v with no := (v.no + 1) % U32MOD }
  else v

/-- `process_instruction` (src/src/lib.rs lines 20-49): take the first
account (error `NotEnoughAccountKeys` when there is none), require
`account.owner == program_id` (else `IncorrectProgramId`), borsh-decode the
account data into a `VoteAccount`, dispatch on `instruction_data[0]` — a
panic when the payload is empty — and serialize the resulting tally back
into the account buffer. -/
def process_instruction (program_id : Nat) (accounts : List AccountInfo)
    (instruction_data : List Nat) : Outcome :=
  match accounts with
  | [] => .err .NotEnoughAccountKeys []
  | account :: rest =>
    if account.owner ≠ program_id then
      .err .IncorrectProgramId (account :: rest)
    else
      match tryFromSlice account.data with
      | none => .err .BorshIoError (account :: rest)
      | some vote_account =>
        match instruction_data with
        | [] => .panic (account :: rest)
        | op :: _ =>
          match serializeInto (applyOpcode op vote_account) account.data with
          | none => .err .BorshIoError (account :: rest)
          | some newData => .ok ({ account with data := newData } :: rest)

/-- A sample account owned by program identity 3, holding the zero tally. -/
def acctOwned : AccountInfo :=
  { key := 7, is_signer := false, is_writable := true, lamports := 5
  , data := [0, 0, 0, 0, 0, 0, 0, 0, 0, 0, 0, 0], owner := 3
  , executable := false, rent_epoch := 0 }

/-- The observable frame of an account: every field except the data buffer. -/
def frameOf (a : AccountInfo) : Nat × Bool × Bool × Nat × Nat × Bool × Nat :=
  (a.key, a.is_signer, a.is_writable, a.lamports, a.owner, a.executable, a.rent_epoch)

/-- A sample owned account whose abstained counter sits at the u32 maximum. -/
def acctMaxAbstained : AccountInfo :=
  { acctOwned with data := [0, 0, 0, 0, 255, 255, 255, 255, 0, 0, 0, 0] }

/-- A successful decode forces the buffer length to be exactly 12. -/
theorem tryFromSlice_some_length {bs : List Nat} {v : VoteAccount}
    (h : tryFromSlice bs = some v) : bs.length = 12 := by
  by_cases hl : bs.length = 12
  · exact hl
  · simp [tryFromSlice, hl] at h

/-- Serializing into a buffer of exactly the encoded size replaces it with
the encoding. -/
theorem serializeInto_full {bs : List Nat} (hl : bs.length = 12) (v : VoteAccount) :
    serializeInto v bs = some (encodeTally v) := by
  have hdrop : bs.drop 12 = [] := by
    rw [← hl]; exact List.drop_length bs
  simp [serializeInto, hl, hdrop]

/-- Reassembling the little-endian bytes of a `u32` recovers the value. -/
theorem u32FromLeBytes_u32ToLeBytes {n : Nat} (h : n < U32MOD) :
    u32FromLeBytes (n % 256) (n / 256 % 256) (n / 65536 % 256) (n / 16777216 % 256) = n := by
  unfold u32FromLeBytes
  unfold U32MOD at h
  omega

/-- Encoding the `u32` read from four bytes below 256 gives those bytes back. -/
theorem u32ToLeBytes_u32FromLeBytes {b0 b1 b2 b3 : Nat}
    (h0 : b0 < 256) (h1 : b1 < 256) (h2 : b2 < 256) (h3 : b3 < 256) :
    u32ToLeBytes (u32FromLeBytes b0 b1 b2 b3) = [b0, b1, b2, b3] := by
  simp only [u32ToLeBytes, u32FromLeBytes, List.cons.injEq, and_true]
  refine ⟨?_, ?_, ?_, ?_⟩ <;> omega

/-- C2: whenever the account's declared owner differs from the caller's
program identity, the invocation fails with `IncorrectProgramId` and every
account — in particular the data buffer — is left byte-for-byte unchanged,
whatever the instruction payload is, so the gate fires before any decode,
mutate or encode step. -/
theorem ownership_gate (program_id : Nat) (account : AccountInfo)
    (rest : List AccountInfo) (instruction_data : List Nat)
    (h : account.owner ≠ program_id) :
    process_instruction program_id (account :: rest) instruction_data =
      .err .IncorrectProgramId (account :: rest) := by
  simp [process_instruction, h]

/-- Witness for C2 at a concrete account owned by 3 but called as program 1. -/
theorem ownership_gate_witness :
    process_instruction 1 [acctOwned] [0] = .err .IncorrectProgramId [acctOwned] :=
  ownership_gate 1 acctOwned [] [0] (by decide)

/-- C9: the ownership check happens before the instruction payload is ever
read: under a wrong owner the outcome does not depend on the payload at all,
and in particular an empty payload still yields the ownership error, not a
payload-related failure. -/
theorem ownership_checked_before_payload (program_id : Nat)
    (account : AccountInfo) (rest : List AccountInfo) (p1 p2 : List Nat)
    (h : account.owner ≠ program_id) :
    process_instruction program_id (account :: rest) p1 =
      process_instruction program_id (account :: rest) p2 ∧
    process_instruction program_id (account :: rest) [] =
      .err .IncorrectProgramId (account :: rest) := by
  constructor <;> simp [process_instruction, h]

/-- Witness for C9: wrong owner, payload `[0]` versus the empty payload. -/
theorem ownership_checked_before_payload_witness :
    process_instruction 1 [acctOwned] [0] = process_instruction 1 [acctOwned] [] ∧
    process_instruction 1 [acctOwned] [] = .err .IncorrectProgramId [acctOwned] :=
  ownership_checked_before_payload 1 acctOwned [] [0] [] (by decide)

/-- C4: decode is a left inverse of encode: every representable tally
survives an encode/decode round trip. -/
theorem decode_encode_roundtrip (v : VoteAccount) (h : v.Valid) :
    tryFromSlice (encodeTally v) = some v := by
  obtain ⟨h1, h2, h3⟩ := h
  obtain ⟨y, a, n⟩ := v
  have hy := u32FromLeBytes_u32ToLeBytes h1
  have ha := u32FromLeBytes_u32ToLeBytes h2
  have hn := u32FromLeBytes_u32ToLeBytes h3
  simp only [encodeTally, u32ToLeBytes, List.cons_append, List.nil_append, tryFromSlice,
    List.length_cons, List.length_nil, List.getD_cons_zero, List.getD_cons_succ]
  simp [hy, ha, hn]

/-- Witness for C4 at the tally `(1, 2, 3)`. -/
theorem decode_encode_roundtrip_witness :
    tryFromSlice (encodeTally { yes := 1, abstained := 2, no := 3 }) =
      some { yes := 1, abstained := 2, no := 3 } :=
  decode_encode_roundtrip { yes := 1, abstained := 2, no := 3 } (by decide)

/-- C5: decoding fails whenever the buffer length is not exactly 12, and a
12-byte buffer decodes deterministically into three little-endian u32 fields
read in the order yes (offset 0), abstained (offset 4), no (offset 8). -/
theorem decode_length_spec :
    (∀ bs : List Nat, bs.length ≠ 12 → tryFromSlice bs = none) ∧
    (∀ a0 a1 a2 a3 b0 b1 b2 b3 c0 c1 c2 c3 : Nat,
      tryFromSlice [a0, a1, a2, a3, b0, b1, b2, b3, c0, c1, c2, c3] =
        some { yes := u32FromLeBytes a0 a1 a2 a3
             , abstained := u32FromLeBytes b0 b1 b2 b3
             , no := u32FromLeBytes c0 c1 c2 c3 }) := by
  constructor
  · intro bs h
    simp [tryFromSlice, h]
  · intro a0 a1 a2 a3 b0 b1 b2 b3 c0 c1 c2 c3
    simp [tryFromSlice]

/-- Witness for C5: buffers of length 11 and 13 fail, a 12-byte buffer
holding little-endian 1, 2, 3 decodes to the tally `(1, 2, 3)`. -/
theorem decode_length_spec_witness :
    tryFromSlice (List.replicate 11 0) = none ∧
    tryFromSlice (List.replicate 13 0) = none ∧
    tryFromSlice [1, 0, 0, 0, 2, 0, 0, 0, 3, 0, 0, 0] =
      some { yes := u32FromLeBytes 1 0 0 0, abstained := u32FromLeBytes 2 0 0 0
           , no := u32FromLeBytes 3 0 0 0 } :=
  ⟨decode_length_spec.1 (List.replicate 11 0) (by decide),
   decode_length_spec.1 (List.replicate 13 0) (by decide),
   decode_length_spec.2 1 0 0 0 2 0 0 0 3 0 0 0⟩

/-- C3 fails as the spec states it: on an owned account with a valid 12-byte
buffer, the empty payload is not rejected by a typed error before indexing —
the program indexes `instruction_data[0]` anyway and the run aborts with an
out-of-bounds panic (so the outcome is `panic`, not an `err` of any kind);
the buffer is untouched because the panic precedes any write-back. -/
theorem empty_payload_counterexample :
    process_instruction 3 [acctOwned] [] = .panic [acctOwned] := by decide

/-- C3 amended: an empty payload makes the invocation abort with an
out-of-bounds panic (after the ownership check and a successful decode),
rather than a typed error; no mutation of the account buffer occurs. -/
theorem empty_payload_panics (program_id : Nat) (account : AccountInfo)
    (rest : List AccountInfo) (v : VoteAccount)
    (hown : account.owner = program_id) (hdec : tryFromSlice account.data = some v) :
    process_instruction program_id (account :: rest) [] = .panic (account :: rest) := by
  simp [process_instruction, hown, hdec]

/-- Witness for the amended C3 at a concrete owned zero-tally account. -/
theorem empty_payload_panics_witness :
    process_instruction 3 [acctOwned] [] = .panic [acctOwned] :=
  empty_payload_panics 3 acctOwned [] { yes := 0, abstained := 0, no := 0 } rfl (by decide)

/-- C1 fails as stated at the u32 maximum: on an owned account whose valid
12-byte buffer holds the tally `(4294967295, 0, 0)`, opcode 0 succeeds but
leaves the yes counter at 0, not at the old value plus 1 — the increment is
addition modulo `2^32`, not exact addition of 1. -/
theorem increment_exact_counterexample :
    tryFromSlice [255, 255, 255, 255, 0, 0, 0, 0, 0, 0, 0, 0] =
      some { yes := 4294967295, abstained := 0, no := 0 } ∧
    process_instruction 3
        [{ acctOwned with data := [255, 255, 255, 255, 0, 0, 0, 0, 0, 0, 0, 0] }] [0] =
      .ok [{ acctOwned with data := [0, 0, 0, 0, 0, 0, 0, 0, 0, 0, 0, 0] }] ∧
    tryFromSlice [0, 0, 0, 0, 0, 0, 0, 0, 0, 0, 0, 0] =
      some { yes := 0, abstained := 0, no := 0 } ∧
    (0 : Nat) ≠ 4294967295 + 1 := by decide

/-- C1 amended: on an owned account with a valid 12-byte tally encoding,
opcode 0 (resp. 1, 2) adds 1 modulo `2^32` to the yes (resp. abstained, no)
counter and leaves the other two fields unchanged; in particular, any
counter below the u32 maximum — such as all of `(0, 0, 0)` — gains exactly
1. -/
theorem increment_correct (program_id : Nat) (account : AccountInfo)
    (rest : List AccountInfo) (op : Nat) (tl : List Nat) (v : VoteAccount)
    (hown : account.owner = program_id) (hdec : tryFromSlice account.data = some v) :
    (op = 0 → process_instruction program_id (account :: rest) (op :: tl) =
      .ok ({ account with
              data := encodeTally { v with yes := (v.yes + 1) % U32MOD } } :: rest)) ∧
    (op = 1 → process_instruction program_id (account :: rest) (op :: tl) =
      .ok ({ account with
              data := encodeTally { v with abstained := (v.abstained + 1) % U32MOD } } :: rest)) ∧
    (op = 2 → process_instruction program_id (account :: rest) (op :: tl) =
      .ok ({ account with
              data := encodeTally { v with no := (v.no + 1) % U32MOD } } :: rest)) := by
  have hl := tryFromSlice_some_length hdec
  refine ⟨?_, ?_, ?_⟩ <;> intro hop <;> subst hop <;>
    simp [process_instruction, hown, hdec, applyOpcode, serializeInto_full hl]

/-- Witness for the amended C1: opcode 0 on the zero tally yields the
encoding of `((0 + 1) % 2^32, 0, 0)`, that is `(1, 0, 0)`. -/
theorem increment_correct_witness :
    process_instruction 3 [acctOwned] [0] =
      .ok [{ acctOwned with
              data := encodeTally { yes := (0 + 1) % U32MOD, abstained := 0, no := 0 } }] :=
  (increment_correct 3 acctOwned [] 0 [] { yes := 0, abstained := 0, no := 0 }
    rfl (by decide)).1 rfl

/-- C6: an opcode outside `{0, 1, 2}` on an owned account with a valid
12-byte buffer mutates nothing — the account comes back byte-for-byte
identical — and the invocation still reports success. -/
theorem unknown_opcode_noop (program_id : Nat) (account : AccountInfo)
    (rest : List AccountInfo) (op : Nat) (tl : List Nat)
    (a0 a1 a2 a3 b0 b1 b2 b3 c0 c1 c2 c3 : Nat)
    (hdata : account.data = [a0, a1, a2, a3, b0, b1, b2, b3, c0, c1, c2, c3])
    (hbytes : a0 < 256 ∧ a1 < 256 ∧ a2 < 256 ∧ a3 < 256 ∧ b0 < 256 ∧ b1 < 256 ∧
              b2 < 256 ∧ b3 < 256 ∧ c0 < 256 ∧ c1 < 256 ∧ c2 < 256 ∧ c3 < 256)
    (hown : account.owner = program_id)
    (hop : op ≠ 0 ∧ op ≠ 1 ∧ op ≠ 2) :
    process_instruction program_id (account :: rest) (op :: tl) = .ok (account :: rest) := by
  obtain ⟨hb0, hb1, hb2, hb3, hb4, hb5, hb6, hb7, hb8, hb9, hb10, hb11⟩ := hbytes
  obtain ⟨ho0, ho1, ho2⟩ := hop
  have hl : account.data.length = 12 := by rw [hdata]; rfl
  have hdec : tryFromSlice account.data =
      some (VoteAccount.mk (u32FromLeBytes a0 a1 a2 a3)
        (u32FromLeBytes b0 b1 b2 b3) (u32FromLeBytes c0 c1 c2 c3)) := by
    rw [hdata]
    simp [tryFromSlice]
  have henc : encodeTally (VoteAccount.mk (u32FromLeBytes a0 a1 a2 a3)
      (u32FromLeBytes b0 b1 b2 b3) (u32FromLeBytes c0 c1 c2 c3)) = account.data := by
    rw [hdata]
    show u32ToLeBytes (u32FromLeBytes a0 a1 a2 a3) ++
        u32ToLeBytes (u32FromLeBytes b0 b1 b2 b3) ++
        u32ToLeBytes (u32FromLeBytes c0 c1 c2 c3) =
      [a0, a1, a2, a3, b0, b1, b2, b3, c0, c1, c2, c3]
    rw [u32ToLeBytes_u32FromLeBytes hb0 hb1 hb2 hb3,
        u32ToLeBytes_u32FromLeBytes hb4 hb5 hb6 hb7,
        u32ToLeBytes_u32FromLeBytes hb8 hb9 hb10 hb11]
    rfl
  have happ : applyOpcode op (VoteAccount.mk (u32FromLeBytes a0 a1 a2 a3)
      (u32FromLeBytes b0 b1 b2 b3) (u32FromLeBytes c0 c1 c2 c3)) =
      VoteAccount.mk (u32FromLeBytes a0 a1 a2 a3)
        (u32FromLeBytes b0 b1 b2 b3) (u32FromLeBytes c0 c1 c2 c3) := by
    simp [applyOpcode, ho0, ho1, ho2]
  have hser : serializeInto (applyOpcode op (VoteAccount.mk (u32FromLeBytes a0 a1 a2 a3)
      (u32FromLeBytes b0 b1 b2 b3) (u32FromLeBytes c0 c1 c2 c3))) account.data =
      some account.data := by
    rw [happ, serializeInto_full hl, henc]
  simp [process_instruction, hown, hdec, hser]
  rw [← hown]

/-- Witness for C6: opcode 7 on the owned zero-tally account is a successful
no-op. -/
theorem unknown_opcode_noop_witness :
    process_instruction 3 [acctOwned] [7] = .ok [acctOwned] :=
  unknown_opcode_noop 3 acctOwned [] 7 [] 0 0 0 0 0 0 0 0 0 0 0 0 rfl
    (by decide) rfl (by decide)

/-- C7 fails as stated: the increment is neither saturating nor checked —
with the abstained counter at the u32 maximum 4294967295, opcode 1 silently
wraps it around to 0 and the invocation still reports success. (The adjacent
yes and no fields are indeed left untouched.) -/
theorem no_overflow_guard_counterexample :
    tryFromSlice [0, 0, 0, 0, 255, 255, 255, 255, 0, 0, 0, 0] =
      some { yes := 0, abstained := 4294967295, no := 0 } ∧
    process_instruction 3
        [{ acctOwned with data := [0, 0, 0, 0, 255, 255, 255, 255, 0, 0, 0, 0] }] [1] =
      .ok [{ acctOwned with data := [0, 0, 0, 0, 0, 0, 0, 0, 0, 0, 0, 0] }] ∧
    (process_instruction 3
        [{ acctOwned with data := [0, 0, 0, 0, 255, 255, 255, 255, 0, 0, 0, 0] }]
        [1]).isOk = true := by decide

/-- C7 amended: the increment uses wrapping (modulo `2^32`) arithmetic: a
counter at the u32 maximum wraps around to 0 on increment, silently (the
invocation reports success), while the two adjacent fields are carried over
into the written buffer unchanged and uncorrupted. -/
theorem wrapping_increment_at_max (program_id : Nat) (account : AccountInfo)
    (rest : List AccountInfo) (tl : List Nat) (v : VoteAccount)
    (hown : account.owner = program_id) (hdec : tryFromSlice account.data = some v)
    (hmax : v.abstained = 4294967295) :
    process_instruction program_id (account :: rest) (1 :: tl) =
      .ok ({ account with data := encodeTally { v with abstained := 0 } } :: rest) := by
  have hl := tryFromSlice_some_length hdec
  have hwrap : (v.abstained + 1) % U32MOD = 0 := by rw [hmax]; rfl
  simp [process_instruction, hown, hdec, applyOpcode, serializeInto_full hl, hwrap]

/-- Witness for the amended C7: incrementing abstained at the maximum wraps
the concrete account's counter to 0 with yes and no intact. -/
theorem wrapping_increment_at_max_witness :
    process_instruction 3 [acctMaxAbstained] [1] =
      .ok [{ acctMaxAbstained with
              data := encodeTally { yes := 0, abstained := 0, no := 0 } }] :=
  wrapping_increment_at_max 3 acctMaxAbstained [] []
    { yes := 0, abstained := 4294967295, no := 0 } rfl (by decide) rfl

/-- C8: atomicity with respect to the account state: any invocation that
does not end in a successful encode and write-back (wrong owner, decode
failure, the empty-payload panic, a failed encode, or a missing account)
leaves every account — in particular the data buffer — exactly as given. -/
theorem atomic_on_failure (program_id : Nat) (accounts : List AccountInfo)
    (instruction_data : List Nat)
    (h : (process_instruction program_id accounts instruction_data).isOk = false) :
    (process_instruction program_id accounts instruction_data).accountsOf = accounts := by
  cases accounts with
  | nil => rfl
  | cons account rest =>
    by_cases hown : account.owner = program_id
    · rcases hdec : tryFromSlice account.data with _ | v
      · simp [process_instruction, hown, hdec, Outcome.accountsOf]
      · cases instruction_data with
        | nil => simp [process_instruction, hown, hdec, Outcome.accountsOf]
        | cons op tl =>
          rcases hser : serializeInto (applyOpcode op v) account.data with _ | nd
          · simp [process_instruction, hown, hdec, hser, Outcome.accountsOf]
          · exfalso
            simp [process_instruction, hown, hdec, hser, Outcome.isOk] at h
    · simp [process_instruction, hown, Outcome.accountsOf]

/-- Witness for C8 at a failing invocation: wrong owner leaves the account
list as given. -/
theorem atomic_on_failure_witness :
    (process_instruction 1 [acctOwned] [0]).accountsOf = [acctOwned] :=
  atomic_on_failure 1 [acctOwned] [0] (by decide)

/-- C10: frame property: whatever the invocation does and however it ends,
every field of every account other than the data buffer — key, signer and
writable flags, lamports, owner, executable flag, rent epoch — is exactly
as given; only data bytes can change. -/
theorem frame_preserved (program_id : Nat) (accounts : List AccountInfo)
    (instruction_data : List Nat) :
    ((process_instruction program_id accounts instruction_data).accountsOf).map frameOf =
      accounts.map frameOf := by
  cases accounts with
  | nil => rfl
  | cons account rest =>
    by_cases hown : account.owner = program_id
    · rcases hdec : tryFromSlice account.data with _ | v
      · simp [process_instruction, hown, hdec, Outcome.accountsOf]
      · cases instruction_data with
        | nil => simp [process_instruction, hown, hdec, Outcome.accountsOf]
        | cons op tl =>
          rcases hser : serializeInto (applyOpcode op v) account.data with _ | nd
          · simp [process_instruction, hown, hdec, hser, Outcome.accountsOf]
          · simp [process_instruction, hown, hdec, hser, Outcome.accountsOf, frameOf]
    · simp [process_instruction, hown, Outcome.accountsOf]
